import Mathlib

/-!
Shallow embedding of the dentwise appointment-booking server actions.

The source consists of two server-action modules:
* an appointments module (`transformAppointment`, `ensureUserExists`,
  `getAppointments`, `getUserAppointments`, `getUserAppointmentStats`,
  `getBookedTimeSlots`, `bookAppointment`, `updateAppointmentStatus`);
* a users module (`syncUser`, `ensureUserExists`, `getCurrentDbUser`).

The persistence layer (Prisma over a relational schema) is modelled as an
explicit `Db` state threaded through every operation; each Prisma call is a
function `Db → Except (String × Db) (α × Db)`.  A thrown JS `Error` is the
`.error` case carrying the error message and the database state at the time
of the throw (exceptions do not roll back persisted writes).  A `trace`
field on `Db` records which persistence operations were issued, so that
"fails before any persistence call" and "is implemented as an atomic
update-or-insert rather than a read-then-write" become statable properties.
A `Db.ok` flag models the health of the persistence layer: when it is
`false` every persistence call throws `Db.failMsg`, which models an
arbitrary underlying query failure.

JS `Date` values are modelled by `JSDate`: the application only ever
constructs dates from calendar-date strings (`new Date(input.date)`), and
only ever consumes them via `toISOString().split("T")[0]` and via Prisma
equality / ascending ordering.  `JSDate` keeps the calendar part and the
time-of-day part of the ISO rendering; for the fixed-width ISO-8601 format
chronological order coincides with lexicographic order on those strings.
-/

/-- Appointment lifecycle status (closed Prisma enum `AppointmentStatus`). -/
inductive AppointmentStatus where
  | CONFIRMED
  | COMPLETED
  | CANCELLED
deriving DecidableEq, Repr

/-- Profile of the authenticated user as supplied by the external identity
provider (Clerk): id, optional name parts, email addresses, phone numbers. -/
structure ClerkUser where
  id : String
  firstName : Option String
  lastName : Option String
  emailAddresses : List String
  phoneNumbers : List String
deriving DecidableEq, Repr

/-- Ambient identity context of one request: `auth()` yields `authUserId`,
`currentUser()` yields `clerkUser`. -/
structure Env where
  authUserId : Option String
  clerkUser : Option ClerkUser
deriving DecidableEq, Repr

/-- Local `User` row.  `firstName`, `lastName` and `phone` are nullable
columns (the users-module sync writes possibly-null provider values). -/
structure User where
  id : String
  clerkId : String
  email : String
  firstName : Option String
  lastName : Option String
  phone : Option String
deriving DecidableEq, Repr

/-- Local `Doctor` row (referenced by id; creation is out of scope). -/
structure Doctor where
  id : String
  name : String
  imageUrl : Option String
deriving DecidableEq, Repr

/-- Model of a JS `Date` as used by this application: the calendar part and
the time-of-day part of its ISO-8601 rendering.  `toISOString` re-joins them
with the literal `"T"`; Prisma's chronological order is lexicographic on
`(datePart, timePart)` for the fixed-width format. -/
structure JSDate where
  datePart : String
  timePart : String
deriving DecidableEq, Repr

/-- Model of `new Date(s)` for a calendar-date string `s` (the only way this
application constructs stored dates): UTC midnight of that calendar date. -/
def jsNewDate (s : String) : JSDate := ⟨s, "00:00:00.000Z"⟩

/-- Model of `d.toISOString()`. -/
def JSDate.toISOString (d : JSDate) : String := d.datePart ++ "T" ++ d.timePart

/-- Model of `s.split(c)[0]`: the prefix of `s` before the first occurrence
of the one-character separator `c`. -/
def jsSplitHead (sep : Char) (s : String) : String :=
  ⟨s.data.takeWhile (fun c => c != sep)⟩

/-- Model of `s.trim()`: strip leading and trailing whitespace. -/
def jsTrim (s : String) : String :=
  ⟨((s.data.dropWhile Char.isWhitespace).reverse.dropWhile
      Char.isWhitespace).reverse⟩

/-- Local `Appointment` row. -/
structure Appointment where
  id : String
  userId : String
  doctorId : String
  date : JSDate
  time : String
  reason : String
  status : AppointmentStatus
  createdAt : Nat
deriving DecidableEq, Repr

/-- Persistence operations, recorded on the database trace. -/
inductive DbOp where
  | userFindUnique (clerkId : String)
  | userCreate (clerkId : String)
  | userUpsert (clerkId : String)
  | apptFindMany
  | apptCount
  | apptCreate
  | apptUpdate (id : String)
deriving DecidableEq, Repr

/-- Database state.  `ok = false` models an unhealthy persistence layer:
every issued call then throws `failMsg` (an arbitrary underlying error).
`nextId` feeds generated row ids, `now` feeds `createdAt` timestamps, and
`trace` records every persistence operation actually issued. -/
structure Db where
  ok : Bool
  failMsg : String
  users : List User
  doctors : List Doctor
  appointments : List Appointment
  nextId : Nat
  now : Nat
  trace : List DbOp
deriving DecidableEq, Repr

/-- Record one persistence operation on the trace. -/
def Db.log (db : Db) (op : DbOp) : Db := { db with trace := db.trace ++ [op] }

/-- Model of `prisma.user.findUnique({ where: { clerkId } })`. -/
def userFindUnique (clerkId : String) (db : Db) :
    Except (String × Db) (Option User × Db) :=
  if db.ok then
    let db' := db.log (.userFindUnique clerkId)
    .ok (db'.users.find? (fun u => u.clerkId == clerkId), db')
  else .error (db.failMsg, db)

/-- Model of `prisma.user.create({ data: {...} })`.  The schema's unique
constraint on `clerkId` makes a duplicate insert throw. -/
def userCreate (clerkId email : String)
    (firstName lastName phone : Option String) (db : Db) :
    Except (String × Db) (User × Db) :=
  if db.ok then
    let db' := db.log (.userCreate clerkId)
    if db'.users.any (fun u => u.clerkId == clerkId) then
      .error ("P2002: unique constraint failed on clerkId", db')
    else
      let u : User := ⟨toString db'.nextId, clerkId, email, firstName, lastName, phone⟩
      .ok (u, { db' with users := db'.users ++ [u], nextId := db'.nextId + 1 })
  else .error (db.failMsg, db)

/-- Model of `prisma.user.upsert({ where: { clerkId }, update, create })`:
a single atomic update-or-insert keyed on the unique `clerkId`. -/
def userUpsert (clerkId : String) (firstName lastName : Option String)
    (email : String) (phone : Option String) (db : Db) :
    Except (String × Db) (User × Db) :=
  if db.ok then
    let db' := db.log (.userUpsert clerkId)
    match db'.users.find? (fun u => u.clerkId == clerkId) with
    | some u =>
      .ok ({ u with firstName := firstName, lastName := lastName,
                    email := email, phone := phone },
           { db' with users := db'.users.map (fun x =>
               if x.clerkId == clerkId then
                 { x with firstName := firstName, lastName := lastName,
                          email := email, phone := phone }
               else x) })
    | none =>
      let u : User := ⟨toString db'.nextId, clerkId, email, firstName, lastName, phone⟩
      .ok (u, { db' with users := db'.users ++ [u], nextId := db'.nextId + 1 })
  else .error (db.failMsg, db)

namespace Appointments

/-- Embedding of the appointments module's `ensureUserExists(clerkId)`:
`currentUser()` (throws `"No Clerk user found"` when absent), then a
`findUnique` on `clerkId`, then — only when no row was found — a `create`
populated from the provider profile, with `?? ""` defaults on name and
phone.  `clerkData.emailAddresses[0].emailAddress` throws a `TypeError`
when the provider profile carries no email address. -/
def ensureUserExists (env : Env) (clerkId : String) (db : Db) :
    Except (String × Db) (User × Db) :=
  match env.clerkUser with
  | none => .error ("No Clerk user found", db)
  | some clerkData =>
    match userFindUnique clerkId db with
    | .error e => .error e
    | .ok (some u, db') => .ok (u, db')
    | .ok (none, db') =>
      match clerkData.emailAddresses.head? with
      | none => .error ("TypeError: cannot read emailAddress of undefined", db')
      | some email =>
        userCreate clerkId email (some (clerkData.firstName.getD ""))
          (some (clerkData.lastName.getD ""))
          (some ((clerkData.phoneNumbers.head?).getD "")) db'

end Appointments

namespace Users

/-- Embedding of the users module's `ensureUserExists()`: returns `null`
(not an error) when no provider identity is available, otherwise issues a
single `upsert` keyed on the unique `clerkId`.  Its `catch` logs and
rethrows the error unmodified, so it is transparent in the model.  Note the
provider values are written without defaults (`firstName`, `lastName`,
`phone` may be null), and `emailAddresses[0].emailAddress` throws a
`TypeError` when the profile carries no email address. -/
def ensureUserExists (env : Env) (db : Db) :
    Except (String × Db) (Option User × Db) :=
  match env.clerkUser with
  | none => .ok (none, db)
  | some clerkUser =>
    match clerkUser.emailAddresses.head? with
    | none => .error ("TypeError: cannot read emailAddress of undefined", db)
    | some email =>
      match userUpsert clerkUser.id clerkUser.firstName clerkUser.lastName
          email clerkUser.phoneNumbers.head? db with
      | .error e => .error e
      | .ok (u, db') => .ok (some u, db')

end Users

/-- Display view of the patient joined onto an appointment
(`user: { select: { firstName, lastName, email } }`). -/
structure UserView where
  firstName : Option String
  lastName : Option String
  email : String
deriving DecidableEq, Repr

/-- Display view of the practitioner joined onto an appointment
(`doctor: { select: { name, imageUrl } }`). -/
structure DoctorView where
  name : String
  imageUrl : Option String
deriving DecidableEq, Repr

/-- Appointment record as returned to the UI: the spread `...appointment`
keeps every stored field (with `date` overwritten by the calendar-date
string) and adds the denormalized display fields. -/
structure TransformedAppointment where
  id : String
  userId : String
  doctorId : String
  date : String
  time : String
  reason : String
  status : AppointmentStatus
  createdAt : Nat
  user : UserView
  doctor : DoctorView
  patientName : String
  patientEmail : String
  doctorName : String
  doctorImageUrl : String
deriving DecidableEq, Repr

/-- Embedding of `transformAppointment`: patient name is the trimmed
concatenation of first and last name with `|| ""` defaults, doctor image
defaults to `""`, and `date` becomes
`appointment.date.toISOString().split("T")[0]`. -/
def transformAppointment (a : Appointment) (u : UserView) (d : DoctorView) :
    TransformedAppointment :=
  { id := a.id, userId := a.userId, doctorId := a.doctorId,
    time := a.time, reason := a.reason, status := a.status,
    createdAt := a.createdAt, user := u, doctor := d,
    patientName := jsTrim ((u.firstName.getD "") ++ " " ++ (u.lastName.getD "")),
    patientEmail := u.email,
    doctorName := d.name,
    doctorImageUrl := d.imageUrl.getD "",
    date := jsSplitHead 'T' a.date.toISOString }

/-- Patient view joined by a Prisma `include` for a given appointment row.
The schema's foreign keys guarantee the referenced row exists; a dangling
reference (unreachable through this application) yields a blank view. -/
def lookupUserView (db : Db) (userId : String) : UserView :=
  match db.users.find? (fun u => u.id == userId) with
  | some u => ⟨u.firstName, u.lastName, u.email⟩
  | none => ⟨none, none, ""⟩

/-- Practitioner view joined by a Prisma `include` for a given appointment
row; see `lookupUserView` on dangling references. -/
def lookupDoctorView (db : Db) (doctorId : String) : DoctorView :=
  match db.doctors.find? (fun d => d.id == doctorId) with
  | some d => ⟨d.name, d.imageUrl⟩
  | none => ⟨"", none⟩

/-- Join the display views onto an appointment row and transform it. -/
def transformIn (db : Db) (a : Appointment) : TransformedAppointment :=
  transformAppointment a (lookupUserView db a.userId) (lookupDoctorView db a.doctorId)

/-- Sort order of the admin listing: newest-created first. -/
def createdAtDesc (a b : Appointment) : Prop := b.createdAt ≤ a.createdAt

instance : DecidableRel createdAtDesc := fun _ _ => Nat.decLe _ _

instance : IsTotal Appointment createdAtDesc :=
  ⟨fun a b => (Nat.le_total b.createdAt a.createdAt).imp id id⟩

instance : IsTrans Appointment createdAtDesc :=
  ⟨fun _ _ _ h h' => Nat.le_trans h' h⟩

/-- Lexicographic order on pairs of strings: strictly smaller first
component, or equal first components and the second components ordered. -/
def lex2 (p q : String × String) : Prop :=
  p.1 < q.1 ∨ (p.1 = q.1 ∧ p.2 ≤ q.2)

instance : DecidableRel lex2 := fun p q => by
  unfold lex2; infer_instance

theorem lex2_total (p q : String × String) : lex2 p q ∨ lex2 q p := by
  rcases lt_trichotomy p.1 q.1 with h | h | h
  · exact Or.inl (Or.inl h)
  · rcases le_total p.2 q.2 with h2 | h2
    · exact Or.inl (Or.inr ⟨h, h2⟩)
    · exact Or.inr (Or.inr ⟨h.symm, h2⟩)
  · exact Or.inr (Or.inl h)

theorem lex2_trans {p q r : String × String}
    (h : lex2 p q) (h' : lex2 q r) : lex2 p r := by
  rcases h with h | ⟨e, h2⟩
  · rcases h' with h' | ⟨e', _⟩
    · exact Or.inl (lt_trans h h')
    · exact Or.inl (e' ▸ h)
  · rcases h' with h' | ⟨e', h2'⟩
    · exact Or.inl (e ▸ h')
    · exact Or.inr ⟨e.trans e', le_trans h2 h2'⟩

/-- Sort order of the per-user listing: date ascending (chronological,
i.e. lexicographic on the fixed-width ISO parts), then time label
ascending. -/
def dateTimeAsc (a b : Appointment) : Prop :=
  a.date.datePart < b.date.datePart ∨
    (a.date.datePart = b.date.datePart ∧
      lex2 (a.date.timePart, a.time) (b.date.timePart, b.time))

instance : DecidableRel dateTimeAsc := fun a b => by
  unfold dateTimeAsc; infer_instance

instance : IsTotal Appointment dateTimeAsc :=
  ⟨fun a b => by
    unfold dateTimeAsc
    rcases lt_trichotomy a.date.datePart b.date.datePart with h | h | h
    · exact Or.inl (Or.inl h)
    · rcases lex2_total (a.date.timePart, a.time) (b.date.timePart, b.time) with h2 | h2
      · exact Or.inl (Or.inr ⟨h, h2⟩)
      · exact Or.inr (Or.inr ⟨h.symm, h2⟩)
    · exact Or.inr (Or.inl h)⟩

instance : IsTrans Appointment dateTimeAsc :=
  ⟨fun a b c h h' => by
    rcases h with h | ⟨e, h2⟩
    · rcases h' with h' | ⟨e', _⟩
      · exact Or.inl (lt_trans h h')
      · exact Or.inl (e' ▸ h)
    · rcases h' with h' | ⟨e', h2'⟩
      · exact Or.inl (e ▸ h')
      · exact Or.inr ⟨e.trans e', lex2_trans h2 h2'⟩⟩

/-- Model of the appointment `findMany` of `getAppointments`: every row,
ordered newest-created first. -/
def apptFindManyAll (db : Db) : Except (String × Db) (List Appointment × Db) :=
  if db.ok then
    let db' := db.log .apptFindMany
    .ok (List.insertionSort createdAtDesc db'.appointments, db')
  else .error (db.failMsg, db)

/-- Model of the appointment `findMany` of `getUserAppointments`: the
caller's rows, ordered by date then time ascending. -/
def apptFindManyUser (userId : String) (db : Db) :
    Except (String × Db) (List Appointment × Db) :=
  if db.ok then
    let db' := db.log .apptFindMany
    .ok (List.insertionSort dateTimeAsc
           (db'.appointments.filter (fun a => a.userId == userId)), db')
  else .error (db.failMsg, db)

/-- Model of `prisma.appointment.count({ where })`. -/
def apptCount (p : Appointment → Bool) (db : Db) :
    Except (String × Db) (Nat × Db) :=
  if db.ok then
    let db' := db.log .apptCount
    .ok ((db'.appointments.filter p).length, db')
  else .error (db.failMsg, db)

/-- Model of `prisma.appointment.create({ data })`.  The schema's foreign
keys on `userId` and `doctorId` make an insert referencing a missing row
throw; ids are generated from `nextId` and `createdAt` from the clock. -/
def apptCreate (userId doctorId : String) (date : JSDate)
    (time reason : String) (status : AppointmentStatus) (db : Db) :
    Except (String × Db) (Appointment × Db) :=
  if db.ok then
    let db' := db.log .apptCreate
    if db'.users.any (fun u => u.id == userId) &&
        db'.doctors.any (fun d => d.id == doctorId) then
      let a : Appointment :=
        ⟨toString db'.nextId, userId, doctorId, date, time, reason, status, db'.now⟩
      .ok (a, { db' with appointments := db'.appointments ++ [a],
                         nextId := db'.nextId + 1 })
    else .error ("P2003: foreign key constraint failed", db')
  else .error (db.failMsg, db)

/-- Model of `prisma.appointment.update({ where: { id }, data: { status } })`:
an unconditional overwrite of the status of the addressed row; updating a
missing row throws. -/
def apptUpdate (id : String) (status : AppointmentStatus) (db : Db) :
    Except (String × Db) (Appointment × Db) :=
  if db.ok then
    let db' := db.log (.apptUpdate id)
    match db'.appointments.find? (fun a => a.id == id) with
    | none => .error ("P2025: record to update not found", db')
    | some a =>
      .ok ({ a with status := status },
           { db' with appointments := db'.appointments.map (fun x =>
               if x.id == id then { x with status := status } else x) })
  else .error (db.failMsg, db)

namespace Appointments

/-- Embedding of `getAppointments` (admin listing): fetch every appointment
newest-created first with joined display views; the catch-all wraps any
failure as a generic error. -/
def getAppointments (db : Db) :
    Except (String × Db) (List TransformedAppointment × Db) :=
  match apptFindManyAll db with
  | .ok (l, db') => .ok (l.map (transformIn db'), db')
  | .error (_, db') => .error ("Failed to fetch appointments", db')

/-- Try-block of `getUserAppointments`: authentication check, user sync,
then the caller's appointments sorted by date then time with joined
display views. -/
def getUserAppointmentsTry (env : Env) (db : Db) :
    Except (String × Db) (List TransformedAppointment × Db) :=
  match env.authUserId with
  | none => .error ("You must be logged in to view appointments", db)
  | some userId =>
    match ensureUserExists env userId db with
    | .error e => .error e
    | .ok (user, db1) =>
      match apptFindManyUser user.id db1 with
      | .error e => .error e
      | .ok (l, db2) => .ok (l.map (transformIn db2), db2)

/-- Embedding of `getUserAppointments`: the catch-all wraps any failure
(including the not-logged-in throw) as a generic error. -/
def getUserAppointments (env : Env) (db : Db) :
    Except (String × Db) (List TransformedAppointment × Db) :=
  match getUserAppointmentsTry env db with
  | .ok r => .ok r
  | .error (_, db') => .error ("Failed to fetch user appointments", db')

end Appointments

/-- Result of `getUserAppointmentStats`. -/
structure AppointmentStats where
  totalAppointments : Nat
  completedAppointments : Nat
deriving DecidableEq, Repr

namespace Appointments

/-- Try-block of `getUserAppointmentStats`: authentication check, user
sync, then the total and the completed appointment counts of the caller. -/
def getUserAppointmentStatsTry (env : Env) (db : Db) :
    Except (String × Db) (AppointmentStats × Db) :=
  match env.authUserId with
  | none => .error ("You must be authenticated", db)
  | some userId =>
    match ensureUserExists env userId db with
    | .error e => .error e
    | .ok (user, db1) =>
      match apptCount (fun a => a.userId == user.id) db1 with
      | .error e => .error e
      | .ok (total, db2) =>
        match apptCount (fun a =>
            a.userId == user.id && a.status == .COMPLETED) db2 with
        | .error e => .error e
        | .ok (completed, db3) => .ok (⟨total, completed⟩, db3)

/-- Embedding of `getUserAppointmentStats`: any failure, persistence or
otherwise, is swallowed by the catch and reported as zero counts. -/
def getUserAppointmentStats (env : Env) (db : Db) :
    Except (String × Db) (AppointmentStats × Db) :=
  match getUserAppointmentStatsTry env db with
  | .ok r => .ok r
  | .error (_, db') => .ok (⟨0, 0⟩, db')

/-- Embedding of `getBookedTimeSlots(doctorId, date)`: the time labels of
the appointments of that practitioner on that calendar date whose status
is CONFIRMED or COMPLETED; any failure is swallowed by the catch and
reported as the empty list. -/
def getBookedTimeSlots (doctorId date : String) (db : Db) :
    Except (String × Db) (List String × Db) :=
  if db.ok then
    let db' := db.log .apptFindMany
    .ok ((db'.appointments.filter (fun a =>
        a.doctorId == doctorId && a.date == jsNewDate date &&
          (a.status == .CONFIRMED || a.status == .COMPLETED))).map
        (fun a => a.time), db')
  else .ok ([], db)

end Appointments

/-- Input of `bookAppointment`; `reason` is optional. -/
structure BookAppointmentInput where
  doctorId : String
  date : String
  time : String
  reason : Option String
deriving DecidableEq, Repr

/-- Model of the JS `||` default on the optional reason: a missing or
empty reason falls back to the default string. -/
def jsOrDefault (r : Option String) (dflt : String) : String :=
  match r with
  | none => dflt
  | some s => if s = "" then dflt else s

namespace Appointments

/-- Try-block of `bookAppointment`: authentication check, required-field
check, user sync, insert with status CONFIRMED and defaulted reason, then
the transformed row with joined display views. -/
def bookAppointmentTry (env : Env) (input : BookAppointmentInput) (db : Db) :
    Except (String × Db) (TransformedAppointment × Db) :=
  match env.authUserId with
  | none => .error ("You must be logged in to book an appointment", db)
  | some userId =>
    if input.doctorId = "" || input.date = "" || input.time = "" then
      .error ("Doctor, date, and time are required", db)
    else
      match ensureUserExists env userId db with
      | .error e => .error e
      | .ok (user, db1) =>
        match apptCreate user.id input.doctorId (jsNewDate input.date)
            input.time (jsOrDefault input.reason "General consultation")
            .CONFIRMED db1 with
        | .error e => .error e
        | .ok (a, db2) => .ok (transformIn db2 a, db2)

/-- Embedding of `bookAppointment`: the catch-all wraps every failure —
the not-logged-in throw, the required-field throw and any persistence
error alike — as the one generic booking-failure error. -/
def bookAppointment (env : Env) (input : BookAppointmentInput) (db : Db) :
    Except (String × Db) (TransformedAppointment × Db) :=
  match bookAppointmentTry env input db with
  | .ok r => .ok r
  | .error (_, db') =>
    .error ("Failed to book appointment. Please try again later.", db')

end Appointments

/-- Input of `updateAppointmentStatus`. -/
structure UpdateStatusInput where
  id : String
  status : AppointmentStatus
deriving DecidableEq, Repr

/-- Provider profile of a concrete test identity. -/
def wClerk : ClerkUser := ⟨"c1", some "Ada", some "Lovelace", ["ada@x.io"], ["555"]⟩

/-- Request context of an authenticated concrete test identity. -/
def wEnv : Env := ⟨some "c1", some wClerk⟩

/-- Request context with no caller identity. -/
def wEnvNoAuth : Env := ⟨none, none⟩

/-- Concrete practitioner row. -/
def wDoctor : Doctor := ⟨"d1", "Dr. Smith", some "img.png"⟩

/-- Concrete local user row of the test identity. -/
def wUser : User := ⟨"u1", "c1", "ada@x.io", some "Ada", some "Lovelace", some "555"⟩

/-- Concrete appointment row of the test identity. -/
def wAppt : Appointment :=
  ⟨"a1", "u1", "d1", jsNewDate "2024-06-01", "09:00", "checkup", .CONFIRMED, 5⟩

/-- Concrete appointment row of a different user, cancelled. -/
def wApptOther : Appointment :=
  ⟨"a2", "u9", "d1", jsNewDate "2024-06-01", "10:00", "cleaning", .CANCELLED, 9⟩

/-- Concrete healthy database state. -/
def wDb : Db := ⟨true, "boom", [wUser], [wDoctor], [wAppt, wApptOther], 0, 100, []⟩

/-- Concrete database state with a failing persistence layer. -/
def wDbBad : Db := ⟨false, "boom", [wUser], [wDoctor], [wAppt, wApptOther], 0, 100, []⟩

namespace Appointments

/-- Embedding of `updateAppointmentStatus`: an unconditional status
overwrite with no transition validation, no read of the current status and
no authorization check (it never consults the identity context); any
failure is wrapped as a generic error. -/
def updateAppointmentStatus (input : UpdateStatusInput) (db : Db) :
    Except (String × Db) (Appointment × Db) :=
  match apptUpdate input.id input.status db with
  | .ok r => .ok r
  | .error (_, db') => .error ("Failed to update appointment", db')

end Appointments

/-- C1 (corrected): a `bookAppointment` call that is unauthenticated or has
an empty `doctorId`, `date` or `time` fails before any persistence call —
the returned database state, rows and operation trace included, is exactly
the input state — but the failure surfaced to the caller is the one generic
booking-failure error: the catch-all wraps the internal not-logged-in and
required-fields throws, so no distinct `NotAuthenticated` or `InvalidInput`
signal reaches the caller. -/
theorem bookAppointment_precondition_failure_generic_and_pure
    (env : Env) (input : BookAppointmentInput) (db : Db)
    (h : env.authUserId = none ∨ input.doctorId = "" ∨ input.date = "" ∨
      input.time = "") :
    Appointments.bookAppointment env input db =
      .error ("Failed to book appointment. Please try again later.", db) := by
  unfold Appointments.bookAppointment Appointments.bookAppointmentTry
  rcases henv : env.authUserId with _ | uid
  · rfl
  · rcases h with h | h | h | h
    · rw [henv] at h; simp at h
    · simp [h]
    · simp [h]
    · simp [h]

/-- C1 witness: the theorem applied to a concrete unauthenticated call. -/
theorem bookAppointment_precondition_failure_generic_and_pure_witness :
    Appointments.bookAppointment wEnvNoAuth ⟨"d1", "2024-06-01", "09:00", none⟩ wDb =
      .error ("Failed to book appointment. Please try again later.", wDb) :=
  bookAppointment_precondition_failure_generic_and_pure wEnvNoAuth _ wDb (Or.inl rfl)

/-- C1 counterexample: a concrete unauthenticated booking call does not
fail with the not-authenticated signal claimed — the surfaced error is the
generic booking-failure message, which differs from it. -/
theorem bookAppointment_unauthenticated_error_is_generic :
    Appointments.bookAppointment wEnvNoAuth ⟨"d1", "2024-06-01", "09:00", none⟩ wDb =
      .error ("Failed to book appointment. Please try again later.", wDb) ∧
    ("Failed to book appointment. Please try again later." : String) ≠
      "You must be logged in to book an appointment" := ⟨rfl, by decide⟩

theorem string_mk_data (s : String) : String.mk s.data = s := by
  cases s; rfl

theorem takeWhile_append_stop {p : Char → Bool} (l1 l2 : List Char) (c : Char)
    (h : ∀ x ∈ l1, p x = true) (hc : p c = false) :
    (l1 ++ c :: l2).takeWhile p = l1 := by
  induction l1 with
  | nil => simp [List.takeWhile_cons, hc]
  | cons x xs ih =>
    have hx := h x (List.mem_cons_self x xs)
    simp [List.takeWhile_cons, hx, ih (fun y hy => h y (List.mem_cons_of_mem x hy))]

theorem data_append (s t : String) : (s ++ t).data = s.data ++ t.data := by
  cases s; cases t; rfl

/-- Splitting the ISO rendering of a date at the first `"T"` recovers the
calendar part, provided the calendar part itself holds no `'T'`. -/
theorem jsSplitHead_toISOString (s tp : String) (h : 'T' ∉ s.data) :
    jsSplitHead 'T' (JSDate.toISOString ⟨s, tp⟩) = s := by
  unfold jsSplitHead JSDate.toISOString
  have hdata : (s ++ "T" ++ tp).data = s.data ++ 'T' :: tp.data := by
    rw [data_append, data_append, List.append_assoc]; rfl
  rw [hdata, takeWhile_append_stop _ _ _
    (fun x hx => by simp [show x ≠ 'T' from fun e => h (e ▸ hx)]) (by simp)]

/-- An `ensureUserExists` call of the appointments module that finds an
existing row returns it unchanged; the only effect is the logged read. -/
theorem Appointments.ensureUserExists_found (env : Env) (cid : String) (db : Db)
    (cu : ClerkUser) (u : User)
    (hcu : env.clerkUser = some cu) (hok : db.ok = true)
    (hu : db.users.find? (fun x => x.clerkId == cid) = some u) :
    Appointments.ensureUserExists env cid db =
      .ok (u, db.log (.userFindUnique cid)) := by
  unfold Appointments.ensureUserExists userFindUnique
  rw [hcu]
  simp [Db.log, hok, hu]

theorem apptCreate_ok (uid did : String) (date : JSDate)
    (time reason : String) (status : AppointmentStatus) (db : Db)
    (hok : db.ok = true)
    (hu : db.users.any (fun x => x.id == uid) = true)
    (hd : db.doctors.any (fun x => x.id == did) = true) :
    apptCreate uid did date time reason status db =
      .ok (⟨toString db.nextId, uid, did, date, time, reason, status, db.now⟩,
           { db.log .apptCreate with
               appointments := db.appointments ++
                 [⟨toString db.nextId, uid, did, date, time, reason, status, db.now⟩],
               nextId := db.nextId + 1 }) := by
  unfold apptCreate
  simp [Db.log, hok, hu, hd]

/-- C2 (confirmed): an authenticated `bookAppointment` call with non-empty
`doctorId`, `date` and `time` and the reason omitted succeeds; the created
appointment has reason `"General consultation"` and status `CONFIRMED`,
and the returned record carries the trimmed concatenation of the patient's
first and last name, the bare calendar-date string (no time-of-day
component) and the practitioner's name and image denormalized onto it. -/
theorem bookAppointment_defaults_and_transform
    (env : Env) (input : BookAppointmentInput) (db : Db)
    (cid : String) (cu : ClerkUser) (u : User) (d : Doctor)
    (hok : db.ok = true)
    (hauth : env.authUserId = some cid)
    (hcu : env.clerkUser = some cu)
    (hne1 : input.doctorId ≠ "") (hne2 : input.date ≠ "") (hne3 : input.time ≠ "")
    (hr : input.reason = none)
    (hu : db.users.find? (fun x => x.clerkId == cid) = some u)
    (hu2 : db.users.find? (fun x => x.id == u.id) = some u)
    (hdoc : db.doctors.find? (fun x => x.id == input.doctorId) = some d)
    (hT : 'T' ∉ input.date.data) :
    ∃ r db2, Appointments.bookAppointment env input db = .ok (r, db2) ∧
      r.reason = "General consultation" ∧
      r.status = .CONFIRMED ∧
      r.patientName = jsTrim ((u.firstName.getD "") ++ " " ++ (u.lastName.getD "")) ∧
      r.date = input.date ∧
      r.doctorName = d.name ∧
      r.doctorImageUrl = d.imageUrl.getD "" := by
  have hany_u : db.users.any (fun x => x.id == u.id) = true :=
    List.any_eq_true.mpr ⟨u, List.mem_of_find?_eq_some hu2, by simp⟩
  have hany_d : db.doctors.any (fun x => x.id == input.doctorId) = true :=
    List.any_eq_true.mpr ⟨d, List.mem_of_find?_eq_some hdoc,
      by have hp := List.find?_some hdoc; exact hp⟩
  have he := Appointments.ensureUserExists_found env cid db cu u hcu hok hu
  have hc := apptCreate_ok u.id input.doctorId (jsNewDate input.date) input.time
    (jsOrDefault input.reason "General consultation") .CONFIRMED
    (db.log (.userFindUnique cid))
    (by simpa [Db.log] using hok)
    (by simpa [Db.log] using hany_u)
    (by simpa [Db.log] using hany_d)
  unfold Appointments.bookAppointment Appointments.bookAppointmentTry
  rw [hauth]
  simp only [hne1, hne2, hne3, decide_False, Bool.false_or, Bool.or_false,
    decide_eq_true_eq]
  rw [if_neg (by simp [hne1, hne2, hne3])]
  simp only [he, hc]
  refine ⟨_, _, rfl, ?_, rfl, ?_, ?_, ?_, ?_⟩
  · simp [transformIn, transformAppointment, hr, jsOrDefault]
  · simp [transformIn, transformAppointment, lookupUserView, Db.log, hu2]
  · simp [transformIn, transformAppointment, jsNewDate]
    exact jsSplitHead_toISOString input.date "00:00:00.000Z" hT
  · simp [transformIn, transformAppointment, lookupDoctorView, Db.log, hdoc]
  · simp [transformIn, transformAppointment, lookupDoctorView, Db.log, hdoc]

/-- C2 witness: the theorem applied to a concrete authenticated booking. -/
theorem bookAppointment_defaults_and_transform_witness :
    ∃ r db2, Appointments.bookAppointment wEnv ⟨"d1", "2024-06-01", "10:30", none⟩ wDb
        = .ok (r, db2) ∧
      r.reason = "General consultation" ∧
      r.status = .CONFIRMED ∧
      r.patientName = jsTrim ((wUser.firstName.getD "") ++ " " ++ (wUser.lastName.getD "")) ∧
      r.date = "2024-06-01" ∧
      r.doctorName = wDoctor.name ∧
      r.doctorImageUrl = wDoctor.imageUrl.getD "" :=
  bookAppointment_defaults_and_transform wEnv ⟨"d1", "2024-06-01", "10:30", none⟩ wDb
    "c1" wClerk wUser wDoctor rfl rfl rfl (by decide) (by decide) (by decide) rfl
    rfl rfl rfl (by decide)

/-- C3 (confirmed): when the query succeeds, the list returned by
`getBookedTimeSlots` contains exactly the time labels of the appointments
of the given practitioner on the given calendar date whose status is
CONFIRMED or COMPLETED; in particular a time label whose only appointment
is CANCELLED is never in it. -/
theorem getBookedTimeSlots_membership
    (doctorId date : String) (db : Db) (hok : db.ok = true) :
    ∀ l db', Appointments.getBookedTimeSlots doctorId date db = .ok (l, db') →
      ∀ t, (t ∈ l ↔ ∃ a ∈ db.appointments, a.doctorId = doctorId ∧
        a.date = jsNewDate date ∧
        (a.status = .CONFIRMED ∨ a.status = .COMPLETED) ∧ a.time = t) := by
  intro l db' h t
  unfold Appointments.getBookedTimeSlots at h
  rw [hok] at h
  simp only [if_true, Db.log, Except.ok.injEq, Prod.mk.injEq] at h
  obtain ⟨hl, -⟩ := h
  subst hl
  simp only [List.mem_map, List.mem_filter, Bool.and_eq_true, Bool.or_eq_true,
    beq_iff_eq]
  constructor
  · rintro ⟨a, ⟨ha, ⟨hdid, hdate⟩, hst⟩, htime⟩
    exact ⟨a, ha, hdid, hdate, hst.imp (fun e => by simpa using e)
      (fun e => by simpa using e), htime⟩
  · rintro ⟨a, ha, hdid, hdate, hst, htime⟩
    exact ⟨a, ⟨ha, ⟨hdid, hdate⟩, hst.imp (fun e => by simpa using e)
      (fun e => by simpa using e)⟩, htime⟩

/-- C3 witness: the theorem applied to a concrete practitioner, date and
database; the label "09:00" of a CONFIRMED appointment is in the list,
and the label "10:00", which belongs only to a CANCELLED appointment, is
characterized as absent. -/
theorem getBookedTimeSlots_membership_witness :
    ("09:00" ∈ ["09:00"] ↔ ∃ a ∈ wDb.appointments, a.doctorId = "d1" ∧
      a.date = jsNewDate "2024-06-01" ∧
      (a.status = .CONFIRMED ∨ a.status = .COMPLETED) ∧ a.time = "09:00") :=
  getBookedTimeSlots_membership "d1" "2024-06-01" wDb rfl
    ["09:00"] (wDb.log .apptFindMany) rfl "09:00"

/-- C4 (confirmed): when the underlying persistence layer fails,
`getBookedTimeSlots` returns the empty list instead of propagating the
error, and `getUserAppointmentStats` returns zero total and zero completed
counts instead of propagating the error. -/
theorem failed_reads_degrade_silently
    (doctorId date : String) (env : Env) (db : Db) (hbad : db.ok = false) :
    Appointments.getBookedTimeSlots doctorId date db = .ok ([], db) ∧
    Appointments.getUserAppointmentStats env db = .ok (⟨0, 0⟩, db) := by
  constructor
  · unfold Appointments.getBookedTimeSlots
    simp [hbad]
  · unfold Appointments.getUserAppointmentStats
      Appointments.getUserAppointmentStatsTry Appointments.ensureUserExists
      userFindUnique
    rcases env.authUserId with _ | uid
    · rfl
    · rcases env.clerkUser with _ | cu
      · rfl
      · simp [hbad]

/-- C4 witness: the theorem applied to a concrete failing database. -/
theorem failed_reads_degrade_silently_witness :
    Appointments.getBookedTimeSlots "d1" "2024-06-01" wDbBad = .ok ([], wDbBad) ∧
    Appointments.getUserAppointmentStats wEnv wDbBad = .ok (⟨0, 0⟩, wDbBad) :=
  failed_reads_degrade_silently "d1" "2024-06-01" wEnv wDbBad rfl

/-- C5 counterexample: on a concrete failing database the admin listing
`getAppointments` does not return an empty result — it signals a generic
fetch error to the caller. -/
theorem getAppointments_failure_signals_error :
    Appointments.getAppointments wDbBad =
      .error ("Failed to fetch appointments", wDbBad) ∧
    (Appointments.getAppointments wDbBad).isOk = false := ⟨rfl, rfl⟩

/-- C5 (corrected): only `getBookedTimeSlots` and
`getUserAppointmentStats` return empty results on failure;
`getAppointments` and `getUserAppointments` signal a generic fetch error
to the caller, and the write operations (booking and status update)
surface failures as generic errors, while the users-module sync propagates
the original persistence error verbatim. -/
theorem error_propagation_policy (env : Env) (db : Db)
    (input : BookAppointmentInput) (upd : UpdateStatusInput)
    (doctorId date : String) (hbad : db.ok = false) :
    Appointments.getAppointments db =
      .error ("Failed to fetch appointments", db) ∧
    Appointments.getUserAppointments env db =
      .error ("Failed to fetch user appointments", db) ∧
    Appointments.getBookedTimeSlots doctorId date db = .ok ([], db) ∧
    Appointments.getUserAppointmentStats env db = .ok (⟨0, 0⟩, db) ∧
    Appointments.bookAppointment env input db =
      .error ("Failed to book appointment. Please try again later.", db) ∧
    Appointments.updateAppointmentStatus upd db =
      .error ("Failed to update appointment", db) ∧
    (∀ cu : ClerkUser, env.clerkUser = some cu → cu.emailAddresses ≠ [] →
      Users.ensureUserExists env db = .error (db.failMsg, db)) := by
  refine ⟨?_, ?_, ?_, ?_, ?_, ?_, ?_⟩
  · unfold Appointments.getAppointments apptFindManyAll
    simp [hbad]
  · unfold Appointments.getUserAppointments Appointments.getUserAppointmentsTry
      Appointments.ensureUserExists userFindUnique
    rcases env.authUserId with _ | uid
    · rfl
    · rcases env.clerkUser with _ | cu
      · rfl
      · simp [hbad]
  · unfold Appointments.getBookedTimeSlots
    simp [hbad]
  · exact (failed_reads_degrade_silently doctorId date env db hbad).2
  · unfold Appointments.bookAppointment Appointments.bookAppointmentTry
      Appointments.ensureUserExists userFindUnique
    rcases env.authUserId with _ | uid
    · rfl
    · rcases henv : env.clerkUser with _ | cu
      · by_cases hempty : input.doctorId = "" ∨ input.date = "" ∨ input.time = ""
        · rcases hempty with h | h | h <;> simp [h]
        · push_neg at hempty
          simp [hempty.1, hempty.2.1, hempty.2.2]
      · by_cases hempty : input.doctorId = "" ∨ input.date = "" ∨ input.time = ""
        · rcases hempty with h | h | h <;> simp [h]
        · push_neg at hempty
          simp [hempty.1, hempty.2.1, hempty.2.2, hbad]
  · unfold Appointments.updateAppointmentStatus apptUpdate
    simp [hbad]
  · intro cu hcu hne
    unfold Users.ensureUserExists userUpsert
    rw [hcu]
    rcases hE : cu.emailAddresses with _ | ⟨e, rest⟩
    · exact absurd hE hne
    · simp [hE, hbad]

/-- C5 witness: the corrected policy applied to a concrete failing
database, request context and inputs. -/
theorem error_propagation_policy_witness :
    Appointments.getAppointments wDbBad =
      .error ("Failed to fetch appointments", wDbBad) ∧
    Appointments.getUserAppointments wEnv wDbBad =
      .error ("Failed to fetch user appointments", wDbBad) ∧
    Appointments.getBookedTimeSlots "d1" "2024-06-01" wDbBad = .ok ([], wDbBad) ∧
    Appointments.getUserAppointmentStats wEnv wDbBad = .ok (⟨0, 0⟩, wDbBad) ∧
    Appointments.bookAppointment wEnv ⟨"d1", "2024-06-01", "10:30", none⟩ wDbBad =
      .error ("Failed to book appointment. Please try again later.", wDbBad) ∧
    Appointments.updateAppointmentStatus ⟨"a1", .CANCELLED⟩ wDbBad =
      .error ("Failed to update appointment", wDbBad) ∧
    (∀ cu : ClerkUser, wEnv.clerkUser = some cu → cu.emailAddresses ≠ [] →
      Users.ensureUserExists wEnv wDbBad = .error (wDbBad.failMsg, wDbBad)) :=
  error_propagation_policy wEnv wDbBad ⟨"d1", "2024-06-01", "10:30", none⟩
    ⟨"a1", .CANCELLED⟩ "d1" "2024-06-01" rfl

/-- An `ensureUserExists` call of the appointments module that finds no
row creates one populated from the provider profile with `?? ""` defaults
on the name parts and the phone. -/
theorem Appointments.ensureUserExists_created (env : Env) (cid : String)
    (db : Db) (cu : ClerkUser) (email : String) (rest : List String)
    (hcu : env.clerkUser = some cu) (hok : db.ok = true)
    (hfind : db.users.find? (fun x => x.clerkId == cid) = none)
    (hemail : cu.emailAddresses = email :: rest) :
    Appointments.ensureUserExists env cid db =
      .ok (⟨toString db.nextId, cid, email, some (cu.firstName.getD ""),
              some (cu.lastName.getD ""), some ((cu.phoneNumbers.head?).getD "")⟩,
           { (db.log (.userFindUnique cid)).log (.userCreate cid) with
               users := db.users ++
                 [⟨toString db.nextId, cid, email, some (cu.firstName.getD ""),
                   some (cu.lastName.getD ""), some ((cu.phoneNumbers.head?).getD "")⟩],
               nextId := db.nextId + 1 }) := by
  have hany : db.users.any (fun x => x.clerkId == cid) = false := by
    rw [List.any_eq_false]
    intro x hx
    exact List.find?_eq_none.mp hfind x hx
  unfold Appointments.ensureUserExists userFindUnique userCreate
  rw [hcu]
  simp [Db.log, hok, hfind, hemail, hany]

/-- A successful `ensureUserExists` call of the appointments module never
touches the appointment or doctor tables, the health flag or the failure
message of the database. -/
theorem Appointments.ensureUserExists_frame (env : Env) (cid : String)
    (db : Db) (u : User) (db' : Db)
    (h : Appointments.ensureUserExists env cid db = .ok (u, db')) :
    db'.appointments = db.appointments ∧ db'.doctors = db.doctors ∧
      db'.ok = db.ok ∧ db'.failMsg = db.failMsg := by
  rcases henv : env.clerkUser with _ | cu
  · unfold Appointments.ensureUserExists at h
    rw [henv] at h; cases h
  · by_cases hok : db.ok = true
    · rcases hfind : db.users.find? (fun x => x.clerkId == cid) with _ | u0
      · rcases hemail : cu.emailAddresses with _ | ⟨e, rest⟩
        · unfold Appointments.ensureUserExists userFindUnique userCreate at h
          rw [henv] at h
          simp [Db.log, hok, hfind, hemail] at h
        · rw [Appointments.ensureUserExists_created env cid db cu e rest
            henv hok hfind hemail] at h
          simp only [Except.ok.injEq, Prod.mk.injEq] at h
          obtain ⟨-, h2⟩ := h
          subst h2
          simp [Db.log]
      · rw [Appointments.ensureUserExists_found env cid db cu u0
          henv hok hfind] at h
        simp only [Except.ok.injEq, Prod.mk.injEq] at h
        obtain ⟨-, h2⟩ := h
        subst h2
        simp [Db.log]
    · unfold Appointments.ensureUserExists userFindUnique at h
      rw [henv] at h
      simp [hok] at h

/-- Display date of a transformed appointment whose stored calendar part
holds no `'T'`: exactly the stored calendar part. -/
theorem transformIn_date_eq (db : Db) (a : Appointment)
    (hT : 'T' ∉ a.date.datePart.data) :
    (transformIn db a).date = a.date.datePart :=
  jsSplitHead_toISOString a.date.datePart a.date.timePart hT

theorem lex2_of_dateTimeAsc (db : Db) (a b : Appointment)
    (hta : a.date.timePart = "00:00:00.000Z") (hTa : 'T' ∉ a.date.datePart.data)
    (htb : b.date.timePart = "00:00:00.000Z") (hTb : 'T' ∉ b.date.datePart.data)
    (h : dateTimeAsc a b) :
    lex2 ((transformIn db a).date, (transformIn db a).time)
         ((transformIn db b).date, (transformIn db b).time) := by
  have hda := transformIn_date_eq db a hTa
  have hdb := transformIn_date_eq db b hTb
  have hti : (transformIn db a).time = a.time := rfl
  have htj : (transformIn db b).time = b.time := rfl
  unfold lex2
  simp only [hda, hdb, hti, htj]
  rcases h with h | ⟨he, h2⟩
  · exact Or.inl h
  · unfold lex2 at h2
    simp only at h2
    rcases h2 with h2 | ⟨-, h3⟩
    · rw [hta, htb] at h2
      exact absurd h2 (lt_irrefl _)
    · exact Or.inr ⟨he, h3⟩

/-- C6 (confirmed): on a healthy database whose stored dates are calendar
dates (midnight time-of-day part, no `'T'` in the calendar part — the only
dates this application ever stores), every list returned by
`getUserAppointments` is sorted ascending by (displayed date, time label)
and every list returned by `getAppointments` is sorted descending by
creation time. -/
theorem listings_sorted (env : Env) (db : Db) (hok : db.ok = true)
    (hdates : ∀ a ∈ db.appointments,
      a.date.timePart = "00:00:00.000Z" ∧ 'T' ∉ a.date.datePart.data) :
    (∀ l db', Appointments.getUserAppointments env db = .ok (l, db') →
      l.Pairwise (fun x y => lex2 (x.date, x.time) (y.date, y.time))) ∧
    (∀ l db', Appointments.getAppointments db = .ok (l, db') →
      l.Pairwise (fun x y => y.createdAt ≤ x.createdAt)) := by
  constructor
  · intro l db' h
    unfold Appointments.getUserAppointments Appointments.getUserAppointmentsTry at h
    rcases henv : env.authUserId with _ | uid
    · rw [henv] at h; cases h
    · rw [henv] at h
      rcases hens : Appointments.ensureUserExists env uid db with e | p
      · simp [hens] at h
      · obtain ⟨user, db1⟩ := p
        simp only [hens] at h
        obtain ⟨happ, -, hok1, -⟩ :=
          Appointments.ensureUserExists_frame env uid db user db1 hens
        unfold apptFindManyUser at h
        rw [hok1] at h
        simp only [hok, if_true, Db.log, Except.ok.injEq, Prod.mk.injEq] at h
        obtain ⟨⟨rfl, -⟩, -⟩ := h
        refine List.pairwise_map.mpr ?_
        have hsorted := List.sorted_insertionSort dateTimeAsc
          (db1.appointments.filter (fun a => a.userId == user.id))
        refine hsorted.imp_of_mem ?_
        intro a b hma hmb hab
        have ha2 : a ∈ db.appointments := by
          rw [← happ]
          exact (List.mem_filter.mp ((List.mem_insertionSort dateTimeAsc).mp hma)).1
        have hb2 : b ∈ db.appointments := by
          rw [← happ]
          exact (List.mem_filter.mp ((List.mem_insertionSort dateTimeAsc).mp hmb)).1
        have hda := hdates a ha2
        have hdb := hdates b hb2
        exact lex2_of_dateTimeAsc _ a b hda.1 hda.2 hdb.1 hdb.2 hab
  · intro l db' h
    unfold Appointments.getAppointments apptFindManyAll at h
    simp only [hok, if_true, Db.log, Except.ok.injEq, Prod.mk.injEq] at h
    obtain ⟨⟨rfl, -⟩, -⟩ := h
    refine List.pairwise_map.mpr ?_
    exact (List.sorted_insertionSort createdAtDesc _).imp (fun h => h)

/-- C6 witness: the theorem applied to a concrete database; the user
listing and the admin listing both come out sorted. -/
theorem listings_sorted_witness :
    (∃ l db', Appointments.getUserAppointments wEnv wDb = .ok (l, db') ∧
      l.Pairwise (fun x y => lex2 (x.date, x.time) (y.date, y.time))) ∧
    (∃ l db', Appointments.getAppointments wDb = .ok (l, db') ∧
      l.Pairwise (fun x y => y.createdAt ≤ x.createdAt)) :=
  ⟨⟨_, _, rfl, (listings_sorted wEnv wDb rfl (by decide)).1 _ _ rfl⟩,
   ⟨_, _, rfl, (listings_sorted wEnv wDb rfl (by decide)).2 _ _ rfl⟩⟩

theorem find?_append_of_none {α} (p : α → Bool) (l1 l2 : List α)
    (h : l1.find? p = none) : (l1 ++ l2).find? p = l2.find? p := by
  induction l1 with
  | nil => rfl
  | cons x xs ih =>
    rw [List.find?_cons] at h
    rcases hx : p x with _ | _
    · rw [List.cons_append, List.find?_cons, hx]
      rw [hx] at h
      exact ih h
    · rw [hx] at h; cases h

theorem list_map_id_of_eq {α} (l : List α) (f : α → α)
    (h : ∀ x ∈ l, f x = x) : l.map f = l := by
  induction l with
  | nil => rfl
  | cons x xs ih =>
    simp only [List.map_cons, h x (List.mem_cons_self x xs), List.cons.injEq, true_and]
    exact ih (fun y hy => h y (List.mem_cons_of_mem x hy))

/-- A `Users.ensureUserExists` call whose upsert finds no row inserts one
populated verbatim (no defaults) from the provider profile. -/
theorem Users.ensureUserExists_create (env : Env) (db : Db) (cu : ClerkUser)
    (email : String) (rest : List String)
    (hcu : env.clerkUser = some cu) (hok : db.ok = true)
    (hemail : cu.emailAddresses = email :: rest)
    (hfind : db.users.find? (fun x => x.clerkId == cu.id) = none) :
    Users.ensureUserExists env db =
      .ok (some ⟨toString db.nextId, cu.id, email, cu.firstName, cu.lastName,
              cu.phoneNumbers.head?⟩,
           { (db.log (.userUpsert cu.id)) with
               users := db.users ++
                 [⟨toString db.nextId, cu.id, email, cu.firstName, cu.lastName,
                   cu.phoneNumbers.head?⟩],
               nextId := db.nextId + 1 }) := by
  unfold Users.ensureUserExists userUpsert
  rw [hcu]
  simp [Db.log, hok, hemail, hfind]

/-- A `Users.ensureUserExists` call whose upsert finds a row refreshes all
its profile fields (last-write-wins from the provider). -/
theorem Users.ensureUserExists_update (env : Env) (db : Db) (cu : ClerkUser)
    (email : String) (rest : List String) (u : User)
    (hcu : env.clerkUser = some cu) (hok : db.ok = true)
    (hemail : cu.emailAddresses = email :: rest)
    (hfind : db.users.find? (fun x => x.clerkId == cu.id) = some u) :
    Users.ensureUserExists env db =
      .ok (some { u with firstName := cu.firstName, lastName := cu.lastName,
                         email := email, phone := cu.phoneNumbers.head? },
           { (db.log (.userUpsert cu.id)) with
               users := db.users.map (fun x =>
                 if x.clerkId == cu.id then
                   { x with firstName := cu.firstName, lastName := cu.lastName,
                            email := email, phone := cu.phoneNumbers.head? }
                 else x) }) := by
  unfold Users.ensureUserExists userUpsert
  rw [hcu]
  simp [Db.log, hok, hemail, hfind]

/-- Fresh database: no local user rows yet. -/
def w7Db : Db := ⟨true, "boom", [], [wDoctor], [], 0, 100, []⟩

/-- C7 counterexample: on a concrete fresh external id, the sync used by
the booking and query services issues a `findUnique` read followed by a
`create` write — a read-then-write sequence — and never issues an atomic
update-or-insert, contradicting the claim that the sync is implemented as
an atomic update-or-insert rather than a read-then-write sequence. -/
theorem apptSync_trace_is_read_then_write :
    Appointments.ensureUserExists wEnv "c1" w7Db =
      .ok (⟨"0", "c1", "ada@x.io", some "Ada", some "Lovelace", some "555"⟩,
        { w7Db with
            users := [⟨"0", "c1", "ada@x.io", some "Ada", some "Lovelace", some "555"⟩],
            nextId := 1,
            trace := [.userFindUnique "c1", .userCreate "c1"] }) ∧
    DbOp.userUpsert "c1" ∉ [DbOp.userFindUnique "c1", DbOp.userCreate "c1"] :=
  ⟨rfl, by decide⟩

/-- C7 (corrected): calling either user-sync twice in immediate succession
for a new external id does result in exactly one local user row; but only
the users-module sync is implemented as an atomic update-or-insert (its
two calls issue exactly two upserts), while the sync used by the booking
and query services is a read-then-write sequence (its two calls issue
find, create, find). -/
theorem user_sync_twice_one_row (env : Env) (cid : String) (db : Db)
    (cu : ClerkUser) (email : String) (rest : List String)
    (hcu : env.clerkUser = some cu) (hid : cu.id = cid) (hok : db.ok = true)
    (hemail : cu.emailAddresses = email :: rest)
    (hnone : ∀ x ∈ db.users, x.clerkId ≠ cid) :
    (∃ u1 db1 u2 db2, Appointments.ensureUserExists env cid db = .ok (u1, db1) ∧
      Appointments.ensureUserExists env cid db1 = .ok (u2, db2) ∧
      (db2.users.filter (fun x => x.clerkId == cid)).length = 1 ∧
      db2.trace = db.trace ++
        [.userFindUnique cid, .userCreate cid, .userFindUnique cid]) ∧
    (∃ u1 db1 u2 db2, Users.ensureUserExists env db = .ok (u1, db1) ∧
      Users.ensureUserExists env db1 = .ok (u2, db2) ∧
      (db2.users.filter (fun x => x.clerkId == cid)).length = 1 ∧
      db2.trace = db.trace ++ [.userUpsert cid, .userUpsert cid]) := by
  subst hid
  have hfind : db.users.find? (fun x => x.clerkId == cu.id) = none :=
    List.find?_eq_none.mpr (fun x hx => by simp [hnone x hx])
  have hfilter : db.users.filter (fun x => x.clerkId == cu.id) = [] :=
    List.filter_eq_nil_iff.mpr (fun x hx => by simp [hnone x hx])
  constructor
  · obtain ⟨u1, db1, heq1, hu1c, husers1, hok1, htrace1⟩ :
        ∃ u1 db1, Appointments.ensureUserExists env cu.id db = .ok (u1, db1) ∧
          u1.clerkId = cu.id ∧ db1.users = db.users ++ [u1] ∧ db1.ok = db.ok ∧
          db1.trace = db.trace ++ [.userFindUnique cu.id, .userCreate cu.id] := by
      refine ⟨_, _, Appointments.ensureUserExists_created env cu.id db cu email
        rest hcu hok hfind hemail, rfl, rfl, rfl, ?_⟩
      simp [Db.log]
    have hfind2 : db1.users.find? (fun x => x.clerkId == cu.id) = some u1 := by
      rw [husers1, find?_append_of_none _ _ _ hfind]
      simp [List.find?_cons, hu1c]
    have h2 := Appointments.ensureUserExists_found env cu.id db1 cu u1 hcu
      (by rw [hok1]; exact hok) hfind2
    refine ⟨u1, db1, u1, db1.log (.userFindUnique cu.id), heq1, h2, ?_, ?_⟩
    · show (db1.users.filter _).length = 1
      rw [husers1, List.filter_append, hfilter]
      simp [hu1c]
    · show db1.trace ++ _ = _
      rw [htrace1]
      simp
  · obtain ⟨u1, db1, heq1, hu1c, husers1, hok1, htrace1⟩ :
        ∃ u1 db1, Users.ensureUserExists env db = .ok (some u1, db1) ∧
          u1.clerkId = cu.id ∧ db1.users = db.users ++ [u1] ∧ db1.ok = db.ok ∧
          db1.trace = db.trace ++ [.userUpsert cu.id] := by
      exact ⟨_, _, Users.ensureUserExists_create env db cu email rest hcu hok
        hemail hfind, rfl, rfl, rfl, rfl⟩
    have hfind2 : db1.users.find? (fun x => x.clerkId == cu.id) = some u1 := by
      rw [husers1, find?_append_of_none _ _ _ hfind]
      simp [List.find?_cons, hu1c]
    have h2 := Users.ensureUserExists_update env db1 cu email rest u1 hcu
      (by rw [hok1]; exact hok) hemail hfind2
    refine ⟨some u1, db1, _, _, heq1, h2, ?_, ?_⟩
    · show ((db1.users.map _).filter _).length = 1
      rw [husers1, List.map_append, list_map_id_of_eq _ _
        (fun x hx => by simp [hnone x hx])]
      rw [List.filter_append, hfilter]
      simp [hu1c]
    · show db1.trace ++ _ = _
      rw [htrace1]
      simp

/-- C7 witness: the corrected theorem applied to a concrete fresh
database and identity. -/
theorem user_sync_twice_one_row_witness :
    (∃ u1 db1 u2 db2, Appointments.ensureUserExists wEnv "c1" w7Db = .ok (u1, db1) ∧
      Appointments.ensureUserExists wEnv "c1" db1 = .ok (u2, db2) ∧
      (db2.users.filter (fun x => x.clerkId == "c1")).length = 1 ∧
      db2.trace = w7Db.trace ++
        [.userFindUnique "c1", .userCreate "c1", .userFindUnique "c1"]) ∧
    (∃ u1 db1 u2 db2, Users.ensureUserExists wEnv w7Db = .ok (u1, db1) ∧
      Users.ensureUserExists wEnv db1 = .ok (u2, db2) ∧
      (db2.users.filter (fun x => x.clerkId == "c1")).length = 1 ∧
      db2.trace = w7Db.trace ++ [.userUpsert "c1", .userUpsert "c1"]) :=
  user_sync_twice_one_row wEnv "c1" w7Db wClerk "ada@x.io" [] rfl rfl rfl rfl
    (by decide)

/-- C8 (confirmed): `updateAppointmentStatus` is an unconditional
overwrite: for an existing appointment it succeeds for every target
status, without reading the current status, validating the transition or
consulting any identity context (the operation takes none); the returned
row and the stored row differ from the original only in the status field
and all other rows are untouched; in particular setting the status to its
current value succeeds and leaves every row of the database unchanged
(only the operation trace grows). -/
theorem updateAppointmentStatus_unconditional_overwrite
    (i : String) (db : Db) (a : Appointment)
    (hok : db.ok = true)
    (hfind : db.appointments.find? (fun x => x.id == i) = some a)
    (huniq : ∀ x ∈ db.appointments, x.id = i → x = a) :
    (∀ s, Appointments.updateAppointmentStatus ⟨i, s⟩ db =
      .ok ({ a with status := s },
        { (db.log (.apptUpdate i)) with
            appointments := db.appointments.map (fun x =>
              if x.id == i then { x with status := s } else x) })) ∧
    Appointments.updateAppointmentStatus ⟨i, a.status⟩ db =
      .ok (a, db.log (.apptUpdate i)) := by
  have hgen : ∀ s, Appointments.updateAppointmentStatus ⟨i, s⟩ db =
      .ok ({ a with status := s },
        { (db.log (.apptUpdate i)) with
            appointments := db.appointments.map (fun x =>
              if x.id == i then { x with status := s } else x) }) := by
    intro s
    unfold Appointments.updateAppointmentStatus apptUpdate
    simp [Db.log, hok, hfind]
  refine ⟨hgen, ?_⟩
  rw [hgen a.status]
  have hmap : db.appointments.map (fun x =>
      if x.id == i then { x with status := a.status } else x) =
        db.appointments := by
    refine list_map_id_of_eq _ _ (fun x hx => ?_)
    by_cases hxi : x.id = i
    · rw [huniq x hx hxi]
      simp [hxi, huniq x hx hxi]
    · simp [hxi]
  rw [hmap]
  rfl

/-- C8 witness: the theorem applied to a concrete appointment, setting its
status to its current value. -/
theorem updateAppointmentStatus_unconditional_overwrite_witness :
    (∀ s, Appointments.updateAppointmentStatus ⟨"a1", s⟩ wDb =
      .ok ({ wAppt with status := s },
        { (wDb.log (.apptUpdate "a1")) with
            appointments := wDb.appointments.map (fun x =>
              if x.id == "a1" then { x with status := s } else x) })) ∧
    Appointments.updateAppointmentStatus ⟨"a1", wAppt.status⟩ wDb =
      .ok (wAppt, wDb.log (.apptUpdate "a1")) :=
  updateAppointmentStatus_unconditional_overwrite "a1" wDb wAppt rfl rfl
    (by decide)

/-- C9 (confirmed): when the local user row already exists, the two sync
paths diverge: the users-module sync refreshes all profile fields (first
name, last name, email, phone) from the provider on every call, while the
sync used by the booking and query services returns the existing row and
leaves the user table untouched (its only effect is the logged read). -/
theorem sync_call_sites_divergence
    (env : Env) (cid : String) (db : Db) (cu : ClerkUser)
    (email : String) (rest : List String) (u : User)
    (hcu : env.clerkUser = some cu) (hok : db.ok = true)
    (hemail : cu.emailAddresses = email :: rest)
    (hfindA : db.users.find? (fun x => x.clerkId == cid) = some u)
    (hfindU : db.users.find? (fun x => x.clerkId == cu.id) = some u) :
    Appointments.ensureUserExists env cid db =
      .ok (u, db.log (.userFindUnique cid)) ∧
    (db.log (.userFindUnique cid)).users = db.users ∧
    Users.ensureUserExists env db =
      .ok (some { u with firstName := cu.firstName, lastName := cu.lastName,
                         email := email, phone := cu.phoneNumbers.head? },
           { (db.log (.userUpsert cu.id)) with
               users := db.users.map (fun x =>
                 if x.clerkId == cu.id then
                   { x with firstName := cu.firstName, lastName := cu.lastName,
                            email := email, phone := cu.phoneNumbers.head? }
                 else x) }) :=
  ⟨Appointments.ensureUserExists_found env cid db cu u hcu hok hfindA, rfl,
   Users.ensureUserExists_update env db cu email rest u hcu hok hemail hfindU⟩

/-- C9 witness: the theorem applied to a concrete database holding the
synced user. -/
theorem sync_call_sites_divergence_witness :
    Appointments.ensureUserExists wEnv "c1" wDb =
      .ok (wUser, wDb.log (.userFindUnique "c1")) ∧
    (wDb.log (.userFindUnique "c1")).users = wDb.users ∧
    Users.ensureUserExists wEnv wDb =
      .ok (some { wUser with
                    firstName := wClerk.firstName,
                    lastName := wClerk.lastName, email := "ada@x.io",
                    phone := wClerk.phoneNumbers.head? },
           { (wDb.log (.userUpsert wClerk.id)) with
               users := wDb.users.map (fun x =>
                 if x.clerkId == wClerk.id then
                   { x with
                       firstName := wClerk.firstName,
                       lastName := wClerk.lastName, email := "ada@x.io",
                       phone := wClerk.phoneNumbers.head? }
                 else x) }) :=
  sync_call_sites_divergence wEnv "c1" wDb wClerk "ada@x.io" [] wUser
    rfl rfl rfl rfl rfl

/-- C10 counterexample: with no caller identity the users-module sync does
not signal any error — it returns null with the database untouched. -/
theorem usersSync_no_identity_returns_null :
    Users.ensureUserExists wEnvNoAuth wDb = .ok (none, wDb) ∧
    (Users.ensureUserExists wEnvNoAuth wDb).isOk = true := ⟨rfl, rfl⟩

/-- C10 (corrected): with no caller identity available the sync used by
the booking and query services throws ("No Clerk user found"), but the
users-module sync returns null without signaling; a persistence error
raised during either sync propagates unmodified (verbatim) to the
caller. -/
theorem user_sync_no_identity_and_error_propagation
    (env : Env) (cid : String) (db : Db) :
    (env.clerkUser = none →
      Appointments.ensureUserExists env cid db =
        .error ("No Clerk user found", db) ∧
      Users.ensureUserExists env db = .ok (none, db)) ∧
    (∀ cu email rest, env.clerkUser = some cu →
      cu.emailAddresses = email :: rest → db.ok = false →
      Appointments.ensureUserExists env cid db = .error (db.failMsg, db) ∧
      Users.ensureUserExists env db = .error (db.failMsg, db)) := by
  constructor
  · intro h
    constructor
    · unfold Appointments.ensureUserExists
      rw [h]
    · unfold Users.ensureUserExists
      rw [h]
  · intro cu email rest hcu hemail hbad
    constructor
    · unfold Appointments.ensureUserExists userFindUnique
      rw [hcu]
      simp [hbad]
    · unfold Users.ensureUserExists userUpsert
      rw [hcu]
      simp [hemail, hbad]

/-- C10 witness: the corrected theorem applied to a concrete
identity-free context and to a concrete failing database. -/
theorem user_sync_no_identity_and_error_propagation_witness :
    (Appointments.ensureUserExists wEnvNoAuth "c1" wDb =
        .error ("No Clerk user found", wDb) ∧
      Users.ensureUserExists wEnvNoAuth wDb = .ok (none, wDb)) ∧
    (Appointments.ensureUserExists wEnv "c1" wDbBad =
        .error (wDbBad.failMsg, wDbBad) ∧
      Users.ensureUserExists wEnv wDbBad = .error (wDbBad.failMsg, wDbBad)) :=
  ⟨(user_sync_no_identity_and_error_propagation wEnvNoAuth "c1" wDb).1 rfl,
   (user_sync_no_identity_and_error_propagation wEnv "c1" wDbBad).2
     wClerk "ada@x.io" [] rfl rfl rfl⟩
